import Mathlib

/-!
# Verification of the minitoolapi browser-driven completion adapter

The repository implements an OpenAI-compatible chat-completions API backed by
browser automation against a remote chat UI.  It contains three parallel
implementations of the same core: `app.js`, `server.js` together with the
`ChatHandler` class appended to it, and the `src/` modules
(`database.js`, `index.js`, plus the `ModelManager` and utility modules).

The definitions below are shallow embeddings of the corresponding JavaScript
functions: JS strings are modelled as `String` or `List Char`, the JS numbers
used for temperatures as rationals, fallible operations as `Except`, and the
per-poll DOM reads of the polling loops as explicit lists of observations
(each element being what that poll's `page.evaluate` returned).
-/

namespace Minitool

/-! ## Word chunking (`ChatHandler.splitIntoChunks`, server.js lines 926-940)

`splitIntoChunks(text, chunkSize)` does `text.split(' ')`, then walks the word
array in strides of `chunkSize`, rejoining each stride with spaces and
appending a trailing space to every stride except the last. -/

/-- JS `String.prototype.split(' ')` on a list of characters: splits on every
space character, preserving empty segments, and always yields at least one
segment (`''.split(' ')` is `['']`). -/
def splitOnSpace : List Char → List (List Char)
  | [] => [[]]
  | c :: cs =>
    match splitOnSpace cs with
    | [] => [[]]
    | w :: ws => if c = ' ' then [] :: w :: ws else (c :: w) :: ws

/-- JS `Array.prototype.join(' ')`: segments rejoined with single spaces. -/
def joinSpace : List (List Char) → List Char
  | [] => []
  | [w] => w
  | w :: a :: ws => w ++ ' ' :: joinSpace (a :: ws)

/-- The stride loop of `ChatHandler.splitIntoChunks`.  The fuel argument
bounds the number of loop iterations and is initialised to the word count,
which suffices whenever `chunkSize` is positive; for `chunkSize = 0` the JS
`for` loop does not terminate, so no fuel value is faithful there. -/
def splitChunksAux : Nat → Nat → List (List Char) → List (List Char)
  | _, _, [] => []
  | 0, _, _ :: _ => []
  | fuel + 1, k, w :: rest =>
    if (w :: rest).length ≤ k then [joinSpace (w :: rest)]
    else (joinSpace ((w :: rest).take k) ++ [' ']) ::
      splitChunksAux fuel k ((w :: rest).drop k)

/-- `ChatHandler.splitIntoChunks(text, chunkSize)` (server.js 926-940). -/
def splitIntoChunks (text : List Char) (chunkSize : Nat) : List (List Char) :=
  splitChunksAux (splitOnSpace text).length chunkSize (splitOnSpace text)

/-- String-valued wrapper of `splitIntoChunks`, as used on the reasoning and
content strings by `ChatHandler.formatStreamResponse`. -/
def splitIntoChunksStr (text : String) (chunkSize : Nat) : List String :=
  (splitIntoChunks text.toList chunkSize).map (fun l => String.mk l)

theorem joinSpace_cons_cons (w a : List Char) (ws : List (List Char)) :
    joinSpace (w :: a :: ws) = w ++ ' ' :: joinSpace (a :: ws) := rfl

theorem splitOnSpace_ne_nil (s : List Char) : splitOnSpace s ≠ [] := by
  cases s with
  | nil => simp [splitOnSpace]
  | cons c cs =>
    simp only [splitOnSpace]
    cases splitOnSpace cs with
    | nil => simp
    | cons w ws =>
      by_cases hc : c = ' ' <;> simp [hc]

theorem joinSpace_splitOnSpace (s : List Char) :
    joinSpace (splitOnSpace s) = s := by
  induction s with
  | nil => rfl
  | cons c cs ih =>
    cases h : splitOnSpace cs with
    | nil => exact absurd h (splitOnSpace_ne_nil cs)
    | cons w ws =>
      rw [h] at ih
      by_cases hc : c = ' '
      · subst hc
        have hu : splitOnSpace (' ' :: cs) = [] :: w :: ws := by
          simp [splitOnSpace, h]
        rw [hu, joinSpace_cons_cons, ih]
        rfl
      · have hu : splitOnSpace (c :: cs) = (c :: w) :: ws := by
          simp [splitOnSpace, h, hc]
        rw [hu]
        cases ws with
        | nil =>
          simp only [joinSpace] at ih ⊢
          simp [ih]
        | cons a ws2 =>
          rw [joinSpace_cons_cons] at ih
          rw [joinSpace_cons_cons, List.cons_append, ih]

/-- Joining the concatenation of two (syntactically) nonempty word lists
inserts exactly one space between the two joins. -/
theorem joinSpace_append (w : List Char) (t : List (List Char))
    (b : List Char) (bs : List (List Char)) :
    joinSpace ((w :: t) ++ b :: bs)
      = joinSpace (w :: t) ++ ' ' :: joinSpace (b :: bs) := by
  induction t generalizing w with
  | nil =>
    rw [List.singleton_append, joinSpace_cons_cons]
    rfl
  | cons a t2 ih =>
    calc joinSpace ((w :: a :: t2) ++ b :: bs)
        = w ++ ' ' :: joinSpace ((a :: t2) ++ b :: bs) :=
          joinSpace_cons_cons w a (t2 ++ b :: bs)
      _ = w ++ ' ' :: (joinSpace (a :: t2) ++ ' ' :: joinSpace (b :: bs)) := by
          rw [ih a]
      _ = (w ++ ' ' :: joinSpace (a :: t2)) ++ ' ' :: joinSpace (b :: bs) := by
          simp
      _ = joinSpace (w :: a :: t2) ++ ' ' :: joinSpace (b :: bs) := by
          rw [joinSpace_cons_cons]

theorem splitChunksAux_flatten (fuel k : Nat) (ws : List (List Char))
    (hk : 0 < k) (hfuel : ws.length ≤ fuel) (hne : ws ≠ []) :
    (splitChunksAux fuel k ws).flatten = joinSpace ws := by
  induction fuel generalizing ws with
  | zero =>
    cases ws with
    | nil => exact absurd rfl hne
    | cons w rest => simp at hfuel
  | succ n ih =>
    cases ws with
    | nil => exact absurd rfl hne
    | cons w rest =>
      simp only [splitChunksAux]
      by_cases hlen : (w :: rest).length ≤ k
      · rw [if_pos hlen]
        simp
      · rw [if_neg hlen]
        push_neg at hlen
        have hdrop_ne : (w :: rest).drop k ≠ [] := by
          intro hcon
          have := List.length_eq_zero.mpr hcon
          rw [List.length_drop] at this
          omega
        have htake_ne : (w :: rest).take k ≠ [] := by
          intro hcon
          have := List.length_eq_zero.mpr hcon
          rw [List.length_take] at this
          simp only [List.length_cons] at this
          omega
        have hdroplen : ((w :: rest).drop k).length ≤ n := by
          rw [List.length_drop]
          simp only [List.length_cons] at hfuel ⊢
          omega
        rw [List.flatten_cons, ih _ hdroplen hdrop_ne]
        obtain ⟨tw, tt, htake⟩ := List.exists_cons_of_ne_nil htake_ne
        obtain ⟨dw, dt, hdrop⟩ := List.exists_cons_of_ne_nil hdrop_ne
        have hsplit : joinSpace ((w :: rest).take k ++ (w :: rest).drop k)
            = joinSpace ((w :: rest).take k) ++ ' ' :: joinSpace ((w :: rest).drop k) := by
          rw [htake, hdrop]
          exact joinSpace_append tw tt dw dt
        rw [List.take_append_drop] at hsplit
        rw [hsplit]
        simp

/-- C2: concatenating, in order, all chunks produced by
`ChatHandler.splitIntoChunks` (groups of `chunkSize` words split on the space
character, a trailing space on every group but the last) reproduces the
original text exactly, for every positive chunk size. -/
theorem splitIntoChunks_roundtrip (text : List Char) (chunkSize : Nat)
    (hk : 0 < chunkSize) :
    (splitIntoChunks text chunkSize).flatten = text := by
  unfold splitIntoChunks
  rw [splitChunksAux_flatten _ _ _ hk le_rfl (splitOnSpace_ne_nil text)]
  exact joinSpace_splitOnSpace text

/-- Witness for C2 at a concrete input: chunk size 2 over a five-word text
(the call sites use chunk size 10). -/
theorem splitIntoChunks_roundtrip_witness :
    0 < 2 ∧ (splitIntoChunks "the quick brown  fox jumps".toList 2).flatten
      = "the quick brown  fox jumps".toList :=
  ⟨by decide, splitIntoChunks_roundtrip "the quick brown  fox jumps".toList 2 (by decide)⟩

/-! ## Non-streaming completion polling (`handleNonStreamingResponse`,
server.js lines 513-603)

The handler polls the page every 500 ms until the 60 s deadline.  Each poll
runs a `page.evaluate` that returns `null` unless a `.response` element with a
`.copyres` button exists, and otherwise returns the element's trimmed text
with the button captions stripped.  We model the run as the finite list of
values those polls returned before the deadline: `none` for a `null` return,
`some c` for text `c`.  JS truthiness makes `some ""` behave like `none`
(`if (responseContent)`).

On a poll whose text equals the previous one, a no-change counter is bumped
and, at 10, the handler responds successfully with that text.  A differing
text resets the counter.  When the deadline passes, the handler responds
successfully with the last observed text if there was any
(`if (lastContent) ... res.json(...)`), and only otherwise with the HTTP 500
`Response timeout` error. -/

/-- Outcome of `handleNonStreamingResponse`: `success c` models
`res.json(...)` with `choices[0].message.content = c`, `timeoutError` models
`res.status(500).json(... Response timeout ...)`. -/
inductive NonStreamResult where
  | success (content : String)
  | timeoutError
  deriving Repr, DecidableEq

/-- The polling loop body of `handleNonStreamingResponse`, carrying the
`lastContent` and `noChangeCount` mutable variables. -/
def nonStreamLoop (maxNoChange : Nat) :
    List (Option String) → String → Nat → NonStreamResult
  | [], lastContent, _ =>
    if lastContent = "" then .timeoutError else .success lastContent
  | o :: rest, lastContent, noChangeCount =>
    match o with
    | none => nonStreamLoop maxNoChange rest lastContent noChangeCount
    | some c =>
      if c = "" then nonStreamLoop maxNoChange rest lastContent noChangeCount
      else if c = lastContent then
        if maxNoChange ≤ noChangeCount + 1 then .success c
        else nonStreamLoop maxNoChange rest lastContent (noChangeCount + 1)
      else nonStreamLoop maxNoChange rest c 0

/-- `handleNonStreamingResponse` over the polls made before the 60 s
deadline, with the source's `maxNoChangeCount = 10` and the initial
`lastContent = ''`, `noChangeCount = 0`. -/
def handleNonStreamingResponse (observations : List (Option String)) :
    NonStreamResult :=
  nonStreamLoop 10 observations "" 0

/-- True when some poll observed non-empty response text. -/
def sawContent (observations : List (Option String)) : Bool :=
  observations.any fun o =>
    match o with
    | some c => c != ""
    | none => false

theorem nonStreamLoop_spec (maxNoChange : Nat) (observations : List (Option String))
    (lastContent : String) (noChangeCount : Nat) :
    (nonStreamLoop maxNoChange observations lastContent noChangeCount = .timeoutError ↔
      (lastContent = "" ∧ sawContent observations = false)) ∧
    (∀ c, nonStreamLoop maxNoChange observations lastContent noChangeCount = .success c →
      c ≠ "" ∧ (c = lastContent ∨ some c ∈ observations)) := by
  induction observations generalizing lastContent noChangeCount with
  | nil =>
    constructor
    · by_cases h : lastContent = "" <;> simp [nonStreamLoop, h, sawContent]
    · intro c hc
      by_cases h : lastContent = "" <;> simp [nonStreamLoop, h] at hc
      exact ⟨hc ▸ h, Or.inl hc.symm⟩
  | cons o rest ih =>
    match o with
    | none =>
      constructor
      · rw [show nonStreamLoop maxNoChange (none :: rest) lastContent noChangeCount
            = nonStreamLoop maxNoChange rest lastContent noChangeCount from rfl]
        rw [(ih lastContent noChangeCount).1]
        simp [sawContent]
      · intro c hc
        have := (ih lastContent noChangeCount).2 c hc
        exact ⟨this.1, this.2.imp id (fun hm => List.mem_cons_of_mem _ hm)⟩
    | some c0 =>
      by_cases hc0 : c0 = ""
      · subst hc0
        constructor
        · rw [show nonStreamLoop maxNoChange (some "" :: rest) lastContent noChangeCount
              = nonStreamLoop maxNoChange rest lastContent noChangeCount from rfl]
          rw [(ih lastContent noChangeCount).1]
          simp [sawContent]
        · intro c hc
          have := (ih lastContent noChangeCount).2 c hc
          exact ⟨this.1, this.2.imp id (fun hm => List.mem_cons_of_mem _ hm)⟩
      · have hsaw : sawContent (some c0 :: rest) = true := by
          simp [sawContent, hc0]
        by_cases heq : c0 = lastContent
        · subst heq
          by_cases hmax : maxNoChange ≤ noChangeCount + 1
          · have hstep : nonStreamLoop maxNoChange (some c0 :: rest) c0 noChangeCount
                = .success c0 := by
              simp [nonStreamLoop, hc0, hmax]
            constructor
            · rw [hstep]
              simp [hsaw]
            · intro c hc
              rw [hstep] at hc
              simp only [NonStreamResult.success.injEq] at hc
              subst hc
              exact ⟨hc0, Or.inl rfl⟩
          · have hstep : nonStreamLoop maxNoChange (some c0 :: rest) c0 noChangeCount
                = nonStreamLoop maxNoChange rest c0 (noChangeCount + 1) := by
              simp [nonStreamLoop, hc0, hmax]
            constructor
            · rw [hstep, (ih c0 (noChangeCount + 1)).1]
              simp [hsaw, hc0]
            · intro c hc
              rw [hstep] at hc
              have := (ih c0 (noChangeCount + 1)).2 c hc
              exact ⟨this.1, this.2.imp id (fun hm => List.mem_cons_of_mem _ hm)⟩
        · have hstep : nonStreamLoop maxNoChange (some c0 :: rest) lastContent noChangeCount
              = nonStreamLoop maxNoChange rest c0 0 := by
            simp [nonStreamLoop, hc0, heq]
          constructor
          · rw [hstep, (ih c0 0).1]
            simp [hsaw, hc0]
          · intro c hc
            rw [hstep] at hc
            have := (ih c0 0).2 c hc
            refine ⟨this.1, ?_⟩
            rcases this.2 with h | h
            · exact Or.inr (h ▸ List.mem_cons_self _ _)
            · exact Or.inr (List.mem_cons_of_mem _ h)

/-- C1: the non-streaming handler returns the `Response timeout` error if and
only if no poll before the deadline observed non-empty response text; whenever
some poll did, the handler responds with a successful completion whose content
is a non-empty text that was actually observed (in particular, the timeout
path still surfaces the partial text seen last). -/
theorem nonStreaming_partial_content (observations : List (Option String)) :
    (handleNonStreamingResponse observations = .timeoutError ↔
      sawContent observations = false) ∧
    (∀ c, handleNonStreamingResponse observations = .success c →
      c ≠ "" ∧ some c ∈ observations) := by
  have h := nonStreamLoop_spec 10 observations "" 0
  constructor
  · rw [handleNonStreamingResponse, h.1]
    simp
  · intro c hc
    have := h.2 c hc
    refine ⟨this.1, ?_⟩
    rcases this.2 with hlast | hm
    · exact absurd hlast this.1
    · exact hm

/-- Witness for C1: a run where partial text appeared once mid-run and no
completion signal stabilised it; the handler returns that text successfully. -/
theorem nonStreaming_partial_content_witness :
    "He" ≠ "" ∧ some "He" ∈ [none, some "He", none] :=
  (nonStreaming_partial_content [none, some "He", none]).2 "He" (by decide)

/-! ## Model catalog rows -/

/-- A row of the `models` table as used by app.js (`id` primary key plus the
remote `path`; the other columns play no role in the claims below). -/
structure ModelRow where
  id : String
  path : String
  deriving Repr, DecidableEq

/-- A model record as used by server.js and the `src/` modules:
`id` plus the owning `group`. -/
structure SModel where
  id : String
  group : String
  deriving Repr, DecidableEq

/-- app.js `findModelById` (lines 243-256): `SELECT * FROM models WHERE id = ?`. -/
def findModelById (catalog : List ModelRow) (modelId : String) : Option ModelRow :=
  catalog.find? fun r => r.id == modelId

/-! ## Model lookup on a chat-completion request (C3)

app.js lines 475-495: look the model up, on a miss run `fetchAllModels()`
once (errors during the refresh are caught and logged), look it up again, and
on a second miss answer HTTP 400 with `error.type = invalid_request_error`;
browser automation runs only when the lookup produced a row.

server.js `handleChatCompletion` lines 287-293: `getModels()` (which serves
the cached list untouched whenever the `model_list` cache entry is unexpired,
and never refreshes because of a missing id), then `models.find(...)`; a miss
answers HTTP 400 whose body is the plain object with an `error` string field
and no `error.type`. -/

/-- Outcome of the model-lookup gate: `proceed` continues into browser
automation; `invalidRequest status errType` models
`res.status(status).json(... error.type = errType ...)` (the message wraps
the requested id, elided here). -/
inductive GateOutcome where
  | proceed (info : ModelRow)
  | invalidRequest (status : Nat) (errType : String)
  deriving Repr, DecidableEq

/-- app.js chat-completions model gate (lines 475-495).  `refreshedCatalog`
is the models table as left by the single `fetchAllModels()` call (on a
refresh failure the exception is swallowed and the table is unchanged).
First component: how many refreshes were performed. -/
def appModelGate (catalog refreshedCatalog : List ModelRow) (model : String) :
    Nat × GateOutcome :=
  match findModelById catalog model with
  | some info => (0, .proceed info)
  | none =>
    match findModelById refreshedCatalog model with
    | some info => (1, .proceed info)
    | none => (1, .invalidRequest 400 "invalid_request_error")

/-- Outcome of server.js `handleChatCompletion`'s lookup: a miss produces a
400 whose body is `\x7b error: <plain string> \x7d`, carrying no `error.type`
field at all. -/
inductive ServerGateOutcome where
  | proceed (info : SModel)
  | badRequestPlain (status : Nat) (message : String)
  deriving Repr, DecidableEq

/-- server.js `getModels()` (lines 248-276) as seen by the completion
handler: a valid (unexpired) `model_list` cache entry is returned as-is and
no discovery runs; otherwise one `discoverModels()` runs.  First component
counts discovery (refresh) calls. -/
def serverGetModels (cachedList : Option (List SModel)) (discovered : List SModel) :
    Nat × List SModel :=
  match cachedList with
  | some l => (0, l)
  | none => (1, discovered)

/-- server.js `handleChatCompletion` model lookup (lines 287-293). -/
def serverModelGate (cachedList : Option (List SModel)) (discovered : List SModel)
    (model : String) : Nat × ServerGateOutcome :=
  let r := serverGetModels cachedList discovered
  match r.2.find? (fun m => m.id == model) with
  | some info => (r.1, .proceed info)
  | none => (r.1, .badRequestPlain 400 ("Model " ++ model ++ " not found"))

/-- C3 counterexample: in server.js `handleChatCompletion`, a request for a
model id absent from a still-valid catalog cache performs zero catalog
refreshes (not the claimed exactly one) and fails with a 400 whose body is a
bare `error` string carrying no `error.type = invalid_request_error`. -/
theorem serverModelGate_no_refresh_no_type :
    serverModelGate (some [⟨"m1", "g"⟩]) [] "m2"
        = (0, .badRequestPlain 400 "Model m2 not found") ∧
    (serverModelGate (some [⟨"m1", "g"⟩]) [] "m2").1 ≠ 1 := by
  constructor
  · rfl
  · decide

/-- C3 (amended): in the app.js handler, a chat-completion request whose
model id is missing from the catalog triggers exactly one catalog refresh and
one retried lookup; if the id is still absent the request fails with HTTP 400
and `error.type = invalid_request_error`, and browser automation is never
entered.  (The server.js handler instead performs no refresh-and-retry and
answers 400 with a plain string body; the ChatHandler module refreshes but
surfaces the failure as a thrown error, i.e. a 500 with type `error`.) -/
theorem appModelGate_refresh_then_400 (catalog refreshedCatalog : List ModelRow)
    (model : String) (hmiss : findModelById catalog model = none) :
    (appModelGate catalog refreshedCatalog model).1 = 1 ∧
    (findModelById refreshedCatalog model = none →
      (appModelGate catalog refreshedCatalog model).2
          = .invalidRequest 400 "invalid_request_error" ∧
      ∀ info, (appModelGate catalog refreshedCatalog model).2 ≠ .proceed info) := by
  unfold appModelGate
  rw [hmiss]
  cases hretry : findModelById refreshedCatalog model with
  | none => simp
  | some info => simp

/-- Witness for C3's amended theorem: empty catalog before and after the
refresh. -/
theorem appModelGate_refresh_then_400_witness :
    (appModelGate [] [] "gpt-9").1 = 1 ∧
    (findModelById [] "gpt-9" = none →
      (appModelGate [] [] "gpt-9").2 = .invalidRequest 400 "invalid_request_error" ∧
      ∀ info, (appModelGate [] [] "gpt-9").2 ≠ .proceed info) :=
  appModelGate_refresh_then_400 [] [] "gpt-9" (by decide)

/-! ## Catalog persistence on refresh (C4)

`Database.saveModels` (src/database.js lines 50-79) runs `DELETE FROM models`
and then inserts every fetched record — a full replace.  app.js
`fetchAllModels` (lines 152-192) does the same.  server.js `discoverModels`
(lines 219-231) instead runs `INSERT OR REPLACE INTO models ...` row by row
with no prior delete — an upsert merge that keeps rows whose ids the new
snapshot does not mention. -/

/-- The `DELETE FROM models` step. -/
def clearModels (_table : List SModel) : List SModel := []

/-- The prepared `INSERT INTO models ...` loop over the fetched records. -/
def insertModels (table : List SModel) (fetched : List SModel) : List SModel :=
  table ++ fetched

/-- `Database.saveModels` (src/database.js 50-79): delete-then-insert. -/
def saveModels (table : List SModel) (fetched : List SModel) : List SModel :=
  insertModels (clearModels table) fetched

/-- The ids present in a models table. -/
def modelIds (table : List SModel) : List String :=
  table.map (fun r => r.id)

/-- One `INSERT OR REPLACE INTO models` statement keyed by id. -/
def upsertModel (table : List SModel) (m : SModel) : List SModel :=
  if table.any (fun r => r.id == m.id) then
    table.map (fun r => if r.id == m.id then m else r)
  else table ++ [m]

/-- server.js `discoverModels` persistence (lines 219-231): upsert each
fetched record, never deleting. -/
def discoverModelsPersist (table : List SModel) (fetched : List SModel) :
    List SModel :=
  fetched.foldl upsertModel table

/-- C4 counterexample: server.js `discoverModels` merges instead of
replacing — after persisting the fetched snapshot `[new-model]` over a table
holding `old-model`, the stale id `old-model` is still in the table even
though the snapshot does not contain it. -/
theorem discoverModels_keeps_stale_row :
    discoverModelsPersist [⟨"old-model", "g"⟩] [⟨"new-model", "g"⟩]
        = [⟨"old-model", "g"⟩, ⟨"new-model", "g"⟩] ∧
    "old-model" ∈ modelIds (discoverModelsPersist [⟨"old-model", "g"⟩] [⟨"new-model", "g"⟩]) ∧
    "old-model" ∉ modelIds [(⟨"new-model", "g"⟩ : SModel)] := by
  refine ⟨rfl, ?_, ?_⟩ <;> decide

/-- C4 (amended): `Database.saveModels` (and likewise app.js
`fetchAllModels`) does replace the table wholesale — after a successful
refresh persisting records `R` the table's ids are exactly the ids of `R`, so
an id present before the refresh but absent from `R` is gone.  (server.js
`discoverModels` instead upserts without deleting and keeps stale ids.) -/
theorem saveModels_replaces (table fetched : List SModel) (staleId : String)
    (hold : staleId ∈ modelIds table) (hgone : staleId ∉ modelIds fetched) :
    saveModels table fetched = fetched ∧
    modelIds (saveModels table fetched) = modelIds fetched ∧
    staleId ∉ modelIds (saveModels table fetched) := by
  refine ⟨rfl, rfl, ?_⟩
  simpa [saveModels, insertModels, clearModels] using hgone

/-- Witness for C4's amended theorem at a concrete table and snapshot. -/
theorem saveModels_replaces_witness :
    saveModels [⟨"old-model", "g"⟩] [⟨"new-model", "g"⟩] = [⟨"new-model", "g"⟩] ∧
    modelIds (saveModels [⟨"old-model", "g"⟩] [⟨"new-model", "g"⟩])
        = modelIds [(⟨"new-model", "g"⟩ : SModel)] ∧
    "old-model" ∉ modelIds (saveModels [⟨"old-model", "g"⟩] [⟨"new-model", "g"⟩]) :=
  saveModels_replaces [⟨"old-model", "g"⟩] [⟨"new-model", "g"⟩] "old-model"
    (by decide) (by decide)

/-! ## Catalog refresh across paths (C5, C6)

Per path, app.js `fetchModelsFromPath` (lines 90-134) and
`ModelManager.fetchModelsFromPage` wrap the whole fetch-and-parse in
try/catch and return `[]` on any error, so a failing path contributes zero
models.  `ModelManager.fetchAllModels` (part_000 lines 102-113) flattens the
per-path results and never throws.  app.js `fetchAllModels` (lines 137-198)
computes the same union but throws `No models found from any path` when it is
empty — before touching the models table — and otherwise replaces the table.
`ModelManager.getModelsList` on its refresh path (part_000 lines 115-142)
saves the union only when nonempty and always returns an ordinary formatted
list response, with no failure signal. -/

/-- Per-path fetch: the argument is the outcome of the HTTP fetch and parse
for that path; the surrounding try/catch turns an error into zero models. -/
def fetchModelsFromPath (outcome : Except String (List SModel)) : List SModel :=
  match outcome with
  | .ok models => models
  | .error _ => []

/-- The per-path model lists of the non-failing paths. -/
def okPathModels (outcomes : List (Except String (List SModel))) :
    List (List SModel) :=
  outcomes.filterMap fun o =>
    match o with
    | .ok models => some models
    | .error _ => none

/-- `ModelManager.fetchAllModels` (part_000 lines 102-113): `Promise.all`
over the per-path fetches, flattened; a total function — it never throws. -/
def fetchAllModelsMM (outcomes : List (Except String (List SModel))) :
    List SModel :=
  (outcomes.map fetchModelsFromPath).flatten

/-- app.js `fetchAllModels` (lines 137-198): same union, but an empty union
throws (leaving the models table untouched) and a nonempty one replaces the
table.  Returns the resulting table and the thrown-or-returned value. -/
def fetchAllModelsApp (outcomes : List (Except String (List SModel)))
    (table : List SModel) : List SModel × Except String (List SModel) :=
  let allModels := (outcomes.map fetchModelsFromPath).flatten
  if allModels.isEmpty then (table, .error "No models found from any path")
  else (saveModels table allModels, .ok allModels)

/-- The `\x7b object: list, data: [...] \x7d` response shape produced by
`ModelManager.formatModelsResponse` (data reduced to the model records). -/
structure ModelsResponse where
  object : String
  data : List SModel
  deriving Repr, DecidableEq

/-- `ModelManager.formatModelsResponse` (part_000 lines 144-156). -/
def formatModelsResponse (models : List SModel) : ModelsResponse :=
  ⟨"list", models⟩

/-- The refresh path of `ModelManager.getModelsList` (part_000 lines
115-142): fetch the union, save it only when nonempty, and always answer with
a formatted (non-error) list response. -/
def getModelsListRefresh (outcomes : List (Except String (List SModel)))
    (table : List SModel) : List SModel × ModelsResponse :=
  let models := fetchAllModelsMM outcomes
  let newTable := if models.isEmpty then table else saveModels table models
  (newTable, formatModelsResponse models)

/-- C5 counterexample: when every path fails, `ModelManager.getModelsList`
keeps the stored catalog but does not report failure — it answers with an
ordinary, successful list response whose data is empty, indistinguishable
from a site with no models. -/
theorem getModelsList_empty_union_no_failure :
    getModelsListRefresh [.error "path down", .error "dns", .ok []]
        [⟨"old-model", "g"⟩]
      = ([⟨"old-model", "g"⟩], ⟨"list", []⟩) := rfl

/-- C5 (amended): a catalog refresh whose union across all configured paths
is empty always leaves the previously stored catalog unchanged; app.js
`fetchAllModels` additionally reports the failure by throwing
`No models found from any path` (distinct from an empty model list), whereas
`ModelManager.getModelsList` (and server.js `getModels`) return an ordinary
empty list response with no failure signal. -/
theorem emptyRefresh_preserves_catalog (outcomes : List (Except String (List SModel)))
    (table : List SModel) (hempty : fetchAllModelsMM outcomes = []) :
    (fetchAllModelsApp outcomes table).1 = table ∧
    (fetchAllModelsApp outcomes table).2 = .error "No models found from any path" ∧
    (getModelsListRefresh outcomes table).1 = table := by
  have h : ((outcomes.map fetchModelsFromPath).flatten).isEmpty = true := by
    rw [show (outcomes.map fetchModelsFromPath).flatten = fetchAllModelsMM outcomes from rfl]
    rw [hempty]
    rfl
  refine ⟨?_, ?_, ?_⟩
  · simp [fetchAllModelsApp, h]
  · simp [fetchAllModelsApp, h]
  · simp [getModelsListRefresh, fetchAllModelsMM, h]

/-- Witness for C5's amended theorem: one failing path over a one-row table. -/
theorem emptyRefresh_preserves_catalog_witness :
    (fetchAllModelsApp [.error "down"] [⟨"old-model", "g"⟩]).1 = [⟨"old-model", "g"⟩] ∧
    (fetchAllModelsApp [.error "down"] [⟨"old-model", "g"⟩]).2
        = .error "No models found from any path" ∧
    (getModelsListRefresh [.error "down"] [⟨"old-model", "g"⟩]).1 = [⟨"old-model", "g"⟩] :=
  emptyRefresh_preserves_catalog [.error "down"] [⟨"old-model", "g"⟩] rfl

/-- C6 counterexample: app.js `fetchAllModels` throws
`No models found from any path` on a run whose first path succeeded (with an
empty option list) while the others failed — so at least one path succeeding
does not prevent the refresh from raising. -/
theorem fetchAllModelsApp_raises_despite_success :
    (fetchAllModelsApp [.ok [], .error "down", .error "dns"] []).2
        = .error "No models found from any path" ∧
    [Except.ok ([] : List SModel), .error "down", .error "dns"].head?
        = some (.ok []) := by
  exact ⟨rfl, rfl⟩

/-- C6 (amended): a failing path contributes zero models and does not stop
the others — the refresh union equals the flattened model lists of exactly
the non-failing paths, and `ModelManager.fetchAllModels` computes it without
ever raising; app.js `fetchAllModels` does not raise provided at least one
path succeeds with a nonempty model list (on an empty union it raises even if
some path succeeded with zero models). -/
theorem refresh_partial_failure (outcomes : List (Except String (List SModel)))
    (table : List SModel) :
    fetchAllModelsMM outcomes = (okPathModels outcomes).flatten ∧
    (∀ e, fetchModelsFromPath (.error e) = []) ∧
    ((∃ models, .ok models ∈ outcomes ∧ models ≠ []) →
      (fetchAllModelsApp outcomes table).2 = .ok (fetchAllModelsMM outcomes)) := by
  refine ⟨?_, fun e => rfl, ?_⟩
  · induction outcomes with
    | nil => rfl
    | cons o rest ih =>
      cases o with
      | ok models => simp [fetchAllModelsMM, okPathModels, fetchModelsFromPath] at ih ⊢; exact ih
      | error e => simp [fetchAllModelsMM, okPathModels, fetchModelsFromPath] at ih ⊢; exact ih
  · rintro ⟨models, hmem, hne⟩
    have hsub : models.Sublist (outcomes.map fetchModelsFromPath).flatten := by
      have : models ∈ outcomes.map fetchModelsFromPath :=
        List.mem_map.mpr ⟨.ok models, hmem, rfl⟩
      exact List.sublist_flatten_of_mem this
    have hne2 : (outcomes.map fetchModelsFromPath).flatten ≠ [] := by
      intro hcon
      rw [hcon] at hsub
      exact hne (List.sublist_nil.mp hsub)
    have : ((outcomes.map fetchModelsFromPath).flatten).isEmpty = false := by
      cases hflat : (outcomes.map fetchModelsFromPath).flatten with
      | nil => exact absurd hflat hne2
      | cons a l => rfl
    simp [fetchAllModelsApp, this, fetchAllModelsMM]

/-- Witness for C6's amended theorem: three paths, one failing, one empty,
one carrying a model. -/
theorem refresh_partial_failure_witness :
    fetchAllModelsMM [.error "down", .ok [], .ok [⟨"m1", "qwen"⟩]]
        = (okPathModels [.error "down", .ok [], .ok [⟨"m1", "qwen"⟩]]).flatten ∧
    (∀ e, fetchModelsFromPath (.error e) = []) ∧
    ((∃ models, Except.ok models
          ∈ ([.error "down", .ok [], .ok [⟨"m1", "qwen"⟩]] :
              List (Except String (List SModel))) ∧ models ≠ []) →
      (fetchAllModelsApp [.error "down", .ok [], .ok [⟨"m1", "qwen"⟩]] []).2
          = .ok (fetchAllModelsMM [.error "down", .ok [], .ok [⟨"m1", "qwen"⟩]])) :=
  refresh_partial_failure [.error "down", .ok [], .ok [⟨"m1", "qwen"⟩]] []

/-! ## Cache expiry (C7)

`Database.getCache` (src/database.js lines 117-128) runs
`SELECT value FROM cache WHERE key = ? AND expires_at > ?` with
`now = Date.now()`; app.js `getModels` (line 216) uses the cached models only
when `row.expires_at > now`, ignoring `created_at` entirely. -/

/-- A row of the `cache` table (src/database.js). -/
structure CacheRow where
  key : String
  value : String
  expiresAt : Int
  deriving Repr, DecidableEq

/-- A row of app.js's `cache_metadata` table, which also stores the creation
time. -/
structure CacheMetaRow where
  key : String
  createdAt : Int
  expiresAt : Int
  deriving Repr, DecidableEq

/-- `Database.getCache` (src/database.js 117-128). -/
def getCache (table : List CacheRow) (key : String) (now : Int) : Option String :=
  (table.find? fun r => r.key == key && now < r.expiresAt).map (fun r => r.value)

/-- The cache-validity test of app.js `getModels` (line 216):
`row.expires_at > now`. -/
def cacheEntryValid (row : CacheMetaRow) (now : Int) : Bool :=
  now < row.expiresAt

/-- C7: a cache entry with `expires_at <= now` is treated as absent by the
read — `getCache` returns a value only from a row with `now < expires_at`
under the requested key, returns none when every row under the key is
expired, and app.js's validity test is independent of `created_at`. -/
theorem cache_expiry_absent (table : List CacheRow) (key : String) (now : Int) :
    ((∀ r ∈ table, r.key = key → r.expiresAt ≤ now) → getCache table key now = none) ∧
    (∀ v, getCache table key now = some v →
      ∃ r ∈ table, r.key = key ∧ now < r.expiresAt ∧ r.value = v) ∧
    (∀ (k : String) (created1 created2 expires tnow : Int),
      cacheEntryValid ⟨k, created1, expires⟩ tnow
        = cacheEntryValid ⟨k, created2, expires⟩ tnow ∧
      (expires ≤ tnow → cacheEntryValid ⟨k, created1, expires⟩ tnow = false)) := by
  refine ⟨?_, ?_, ?_⟩
  · intro hall
    rw [getCache, Option.map_eq_none']
    rw [List.find?_eq_none]
    intro r hr
    simp only [Bool.and_eq_true, beq_iff_eq, decide_eq_true_eq, not_and]
    intro hkey
    exact not_lt.mpr (hall r hr hkey)
  · intro v hv
    rw [getCache] at hv
    rcases Option.map_eq_some'.mp hv with ⟨r, hfind, hval⟩
    have hmem := List.mem_of_find?_eq_some hfind
    have hpred := List.find?_some hfind
    simp only [Bool.and_eq_true, beq_iff_eq, decide_eq_true_eq] at hpred
    exact ⟨r, hmem, hpred.1, hpred.2, hval⟩
  · intro k created1 created2 expires tnow
    exact ⟨rfl, fun hle => by simp [cacheEntryValid, not_lt.mpr hle]⟩

/-- Witness for C7 at a concrete expired row (`expires_at = now`). -/
theorem cache_expiry_absent_witness :
    getCache [⟨"models_updated", "cached", 100⟩] "models_updated" 100 = none :=
  (cache_expiry_absent [⟨"models_updated", "cached", 100⟩] "models_updated" 100).1
    (by decide)

/-! ## Temperature application (C8)

server.js `handleChatCompletion` (lines 332-345): when the `#temperature`
control exists, its live `min`/`max` are read and the requested temperature
is written to the control exactly when `min <= t <= max`, otherwise the
control is left untouched.  app.js (lines 307-329) does the same but only
after an outer hardcoded `0.0 <= t <= 2.0` gate.  `ChatHandler.sendToBrowser`
(server.js lines 736-743) writes any provided temperature to the control with
no bounds check at all. -/

/-- The live `#temperature` control: its declared bounds and its current
value (`none` models the remote default being left in place). -/
structure TempControl where
  minVal : ℚ
  maxVal : ℚ
  value : Option ℚ
  deriving DecidableEq

/-- server.js `handleChatCompletion` temperature handling (lines 332-345). -/
def applyTemperatureServer (ctrl : TempControl) (temperature : ℚ) : TempControl :=
  if ctrl.minVal ≤ temperature ∧ temperature ≤ ctrl.maxVal then
    { ctrl with value := some temperature }
  else ctrl

/-- app.js temperature handling (lines 307-329): hardcoded `[0, 2]` gate,
then the live-control bounds. -/
def applyTemperatureApp (ctrl : TempControl) (temperature : Option ℚ) : TempControl :=
  match temperature with
  | none => ctrl
  | some t =>
    if 0 ≤ t ∧ t ≤ 2 then
      if ctrl.minVal ≤ t ∧ t ≤ ctrl.maxVal then { ctrl with value := some t }
      else ctrl
    else ctrl

/-- `ChatHandler.sendToBrowser` temperature handling (server.js lines
736-743): the value is written unconditionally whenever provided. -/
def applyTemperatureChatHandler (ctrl : TempControl) (temperature : Option ℚ) :
    TempControl :=
  match temperature with
  | none => ctrl
  | some t => { ctrl with value := some t }

/-- C8 counterexample: `ChatHandler.sendToBrowser` writes a requested
temperature of 5 into a control whose declared bounds are `[0, 2]`, instead
of leaving the control unset as the claim requires for an out-of-bounds
value. -/
theorem chatHandler_sets_out_of_range_temperature :
    applyTemperatureChatHandler ⟨0, 2, none⟩ (some 5) = ⟨0, 2, some 5⟩ ∧
    ¬ ((5 : ℚ) ≤ 2) := by
  exact ⟨rfl, by norm_num⟩

/-- C8 (amended): in server.js `handleChatCompletion` a requested temperature
within the control's live `[min, max]` is written exactly, and one outside
those bounds leaves the control entirely untouched; app.js behaves the same
except that the request value must additionally lie in the hardcoded
`[0, 2]`.  (`ChatHandler.sendToBrowser` instead writes the value with no
bounds check.) -/
theorem temperature_clamp (ctrl : TempControl) (t : ℚ) :
    (ctrl.minVal ≤ t → t ≤ ctrl.maxVal →
      applyTemperatureServer ctrl t = { ctrl with value := some t }) ∧
    (¬ (ctrl.minVal ≤ t ∧ t ≤ ctrl.maxVal) → applyTemperatureServer ctrl t = ctrl) ∧
    (0 ≤ t → t ≤ 2 → ctrl.minVal ≤ t → t ≤ ctrl.maxVal →
      applyTemperatureApp ctrl (some t) = { ctrl with value := some t }) ∧
    (¬ (ctrl.minVal ≤ t ∧ t ≤ ctrl.maxVal) → applyTemperatureApp ctrl (some t) = ctrl) ∧
    applyTemperatureApp ctrl none = ctrl := by
  refine ⟨?_, ?_, ?_, ?_, rfl⟩
  · intro h1 h2
    simp [applyTemperatureServer, h1, h2]
  · intro h
    simp [applyTemperatureServer, h]
  · intro h0 h2 h3 h4
    simp [applyTemperatureApp, h0, h2, h3, h4]
  · intro h
    by_cases hg : 0 ≤ t ∧ t ≤ 2
    · simp [applyTemperatureApp, hg, h]
    · simp [applyTemperatureApp, hg]

/-- Witness for C8's amended theorem: control with live bounds `[0, 2]`,
requested temperature `1`, written exactly. -/
theorem temperature_clamp_witness :
    applyTemperatureServer ⟨0, 2, none⟩ 1 = ⟨0, 2, some 1⟩ ∧
    applyTemperatureApp ⟨0, 2, none⟩ (some 1) = ⟨0, 2, some 1⟩ :=
  ⟨(temperature_clamp ⟨0, 2, none⟩ 1).1 (by norm_num) (by norm_num),
   (temperature_clamp ⟨0, 2, none⟩ 1).2.2.1 (by norm_num) (by norm_num)
     (by norm_num) (by norm_num)⟩

/-! ## Streaming chunk protocol (C9) and usage accounting (C10)

`ChatHandler.formatStreamResponse` (server.js lines 839-924) builds the chunk
list: a role chunk with null content, optional reasoning chunks, word-grouped
content chunks, and a final `finish_reason = stop` chunk carrying usage.
src/index.js (lines 41-71) writes each chunk as a `data:` line followed by
`data: [DONE]` — but only on success: when `processChat` throws (for example
`waitForResponse`'s 60 s `Response timeout`), the catch writes a bare error
object and ends the stream with no stop chunk and no `[DONE]`. -/

/-- An OpenAI-style usage object. -/
structure Usage where
  prompt_tokens : Nat
  completion_tokens : Nat
  total_tokens : Nat
  deriving Repr, DecidableEq

/-- A streaming delta; `none` models a JS `null` (or absent) field. -/
structure Delta where
  role : Option String
  content : Option String
  reasoning_content : Option String
  deriving Repr, DecidableEq

/-- One `chat.completion.chunk` (id/created/model fields elided — they are
constant across the sequence). -/
structure StreamChunk where
  delta : Delta
  finish_reason : Option String
  usage : Option Usage
  deriving Repr, DecidableEq

/-- The decoded remote answer (`ChatHandler.waitForResponse` result). -/
structure CompletionResult where
  content : String
  reasoning : Option String
  deriving Repr, DecidableEq

/-- JS truthiness of the reasoning field: `null` and `''` are falsy. -/
def jsTruthy (s : Option String) : Bool :=
  match s with
  | some v => v != ""
  | none => false

/-- The first chunk of `formatStreamResponse`: role announcement with null
content (`reasoning_content` is `''` when reasoning is present, else null). -/
def roleChunkOf (r : CompletionResult) : StreamChunk :=
  ⟨⟨some "assistant", none, if jsTruthy r.reasoning then some "" else none⟩,
    none, none⟩

/-- The reasoning chunks of `formatStreamResponse` (10-word groups). -/
def reasoningChunksOf (r : CompletionResult) : List StreamChunk :=
  if jsTruthy r.reasoning then
    (splitIntoChunksStr (r.reasoning.getD "") 10).map fun c =>
      ⟨⟨none, none, some c⟩, none, none⟩
  else []

/-- The content chunks of `formatStreamResponse` (10-word groups). -/
def contentChunksOf (r : CompletionResult) : List StreamChunk :=
  (splitIntoChunksStr r.content 10).map fun c =>
    ⟨⟨none, some c, none⟩, none, none⟩

/-- `ChatHandler` usage object (server.js lines 831-835 and 916-920): all
counters are zero. -/
def usageChatHandler : Usage := ⟨0, 0, 0⟩

/-- The terminal chunk of `formatStreamResponse`: empty content delta,
`finish_reason = stop`, usage attached. -/
def finalStreamChunk : StreamChunk :=
  ⟨⟨none, some "", none⟩, some "stop", some usageChatHandler⟩

/-- `ChatHandler.formatStreamResponse` (server.js lines 839-924). -/
def formatStreamResponse (r : CompletionResult) : List StreamChunk :=
  roleChunkOf r :: (reasoningChunksOf r ++ contentChunksOf r ++ [finalStreamChunk])

/-- One line of the SSE stream written by src/index.js. -/
inductive StreamEvent where
  | data (chunk : StreamChunk)
  | errorData (message : String)
  | done
  deriving Repr, DecidableEq

/-- The streaming branch of src/index.js (lines 41-71): on success all chunks
then `data: [DONE]`; when `processChat` throws, a bare error object and no
terminator. -/
def streamEvents (result : Except String CompletionResult) : List StreamEvent :=
  match result with
  | .ok r => (formatStreamResponse r).map .data ++ [.done]
  | .error msg => [.errorData msg]

/-- C9 counterexample: on the timeout path (`waitForResponse` throws
`Response timeout`), the emitted stream is a single bare error object — it
contains no `finish_reason = stop` chunk and is not terminated by
`data: [DONE]`, so the claimed shape does not hold on every path. -/
theorem streaming_timeout_breaks_protocol :
    streamEvents (.error "Response timeout") = [.errorData "Response timeout"] ∧
    (streamEvents (.error "Response timeout")).getLast? ≠ some .done := by
  exact ⟨rfl, by decide⟩

/-- C9 (amended): on the success path, for every completion result the
emitted event sequence begins with a role-announcement chunk whose delta
content is null, its last chunk before the terminator carries
`finish_reason = stop` together with the usage object, and it ends with the
literal `[DONE]` line.  (On error/timeout paths this shape is not produced:
src/index.js emits a bare error object with no stop chunk and no `[DONE]`,
and app.js's streaming catch emits a stop chunk without usage.) -/
theorem stream_success_shape (r : CompletionResult) :
    (streamEvents (.ok r)).head? = some (.data (roleChunkOf r)) ∧
    (roleChunkOf r).delta.role = some "assistant" ∧
    (roleChunkOf r).delta.content = none ∧
    (roleChunkOf r).finish_reason = none ∧
    (streamEvents (.ok r)).getLast? = some .done ∧
    (streamEvents (.ok r)).dropLast.getLast? = some (.data finalStreamChunk) ∧
    finalStreamChunk.finish_reason = some "stop" ∧
    finalStreamChunk.usage = some usageChatHandler := by
  refine ⟨?_, rfl, rfl, rfl, ?_, ?_, rfl, rfl⟩
  · simp [streamEvents, formatStreamResponse]
  · simp [streamEvents]
  · rw [streamEvents]
    rw [List.dropLast_concat]
    rw [formatStreamResponse]
    rw [List.map_cons]
    rw [List.getLast?_cons]
    rw [show reasoningChunksOf r ++ contentChunksOf r ++ [finalStreamChunk]
        = (reasoningChunksOf r ++ contentChunksOf r) ++ [finalStreamChunk] from rfl]
    rw [List.map_append]
    simp

/-- app.js usage object (lines 580-584 and 637-641): character counts of the
joined prompt and of the response. -/
def usageApp (formattedMessages response : String) : Usage :=
  ⟨formattedMessages.length, response.length,
    formattedMessages.length + response.length⟩

/-- server.js usage object (streaming finish chunk lines 483-487,
non-streaming lines 559-563 and 592-596): fixed prompt estimate 10 plus the
content length. -/
def usageServer (content : String) : Usage :=
  ⟨10, content.length, 10 + content.length⟩

/-- C10: every usage object the encoders emit — app.js non-streaming and
streaming, server.js non-streaming and streaming, and the ChatHandler usage
attached to `finalStreamChunk` — satisfies
`total_tokens = prompt_tokens + completion_tokens` exactly. -/
theorem usage_totals (formattedMessages response content : String) :
    (usageApp formattedMessages response).total_tokens
        = (usageApp formattedMessages response).prompt_tokens
          + (usageApp formattedMessages response).completion_tokens ∧
    (usageServer content).total_tokens
        = (usageServer content).prompt_tokens
          + (usageServer content).completion_tokens ∧
    usageChatHandler.total_tokens
        = usageChatHandler.prompt_tokens + usageChatHandler.completion_tokens ∧
    finalStreamChunk.usage = some usageChatHandler :=
  ⟨rfl, rfl, rfl, rfl⟩

end Minitool
